import Mathlib

/-!
Shallow embedding of the content query pipeline of `BlogService` and
`CategoriaService` (Angular blog application, `src/app/core/services/blog.service.ts`
and `categoria.service.ts`, together with the mock-data helpers of
`blog-mock.data.ts` / `categorias-mock.data.ts`).

Conventions of the embedding:
* JavaScript numbers that hold integral values (timestamps, counters, pages)
  are modelled as `Int` / `Nat`.
* `Date` values are modelled by their millisecond timestamp (`getTime`).
* A JavaScript object used as a filter argument is modelled two ways:
  `FiltersObj` is the object itself — an insertion-ordered list of
  (property name, JSON value) pairs, which is what `JSON.stringify` consumes —
  and `BlogFilters` is the record view obtained by property access.
* The mutable service instance (caches, loading signals, the mutable mock
  store) is modelled by an explicit state record threaded through operations;
  `Date.now()` becomes an explicit `now : Int` argument and `Math.random()`
  in `toggleLike` becomes an explicit `liked : Bool` argument.
* `Map` objects are modelled as insertion-ordered association lists with
  insert-or-replace update, matching JavaScript `Map.set`/`Map.get`.
* `Array.prototype.sort(cmp)` (stable in ECMAScript) is modelled by a stable
  insertion sort ordered by `cmp a b ≤ 0`; a stable comparator sort is a
  unique function of its input, so any correct stable sort represents it.
-/

namespace Blog

/-- JSON values as produced by the fields of a filters object.
`jdate ms` stands for a `Date` property (serialized form rendered from its
timestamp; the exact rendered text is irrelevant to the claims, only that the
serialization is a deterministic function of the value).  The only arrays a
`BlogFilters` object carries are string arrays (`categoryIds`, `tags`), so
arrays are modelled as `jarrStr`. -/
inductive JVal where
  | jstr (s : String)
  | jnum (n : Int)
  | jbool (b : Bool)
  | jdate (ms : Int)
  | jarrStr (xs : List String)
deriving DecidableEq, Repr

/-- Quote a string as JSON does (the property names and values occurring in
filter objects contain no characters needing escapes). -/
def jquote (s : String) : String := "\"" ++ s ++ "\""

/-- Render a JSON value to its serialized text, as `JSON.stringify` does. -/
def JVal.render : JVal → String
  | .jstr s => jquote s
  | .jnum n => toString n
  | .jbool b => if b then "true" else "false"
  | .jdate ms => jquote (toString ms)
  | .jarrStr xs => "[" ++ String.intercalate "," (xs.map jquote) ++ "]"

/-- A JavaScript filters object: its own enumerable properties in insertion
order.  Property access reads the first binding of a name (the objects built
by the UI never repeat a property name). -/
structure FiltersObj where
  fields : List (String × JVal)
deriving DecidableEq, Repr

/-- `JSON.stringify` on a filters object: renders the properties in insertion
order — the serialization is NOT normalized by key. -/
def stringifyObj (o : FiltersObj) : String :=
  "\x7b" ++ String.intercalate "," (o.fields.map (fun kv => jquote kv.1 ++ ":" ++ kv.2.render)) ++ "\x7d"

/-- `BlogSortBy` from `blog.interface.ts`. -/
inductive BlogSortBy where
  | publishedAt | createdAt | updatedAt | title | views | likes | commentsCount | readingTime
deriving DecidableEq, Repr

/-- Sort direction `'asc' | 'desc'`. -/
inductive SortDir where
  | asc | desc
deriving DecidableEq, Repr

/-- `BlogPost` from `blog.interface.ts`.  Fields never read by the functions
under study (featured image, SEO metadata, social config, populated relations,
`content`, `allowComments`) are omitted; no modelled operation reads them.
`publishedAt` is optional in the interface; the service reads it through the
non-null assertion `post.publishedAt!` (published posts always carry it), which
the embedding renders as `getD 0`. -/
structure BlogPost where
  id : String
  title : String
  slug : String
  excerpt : String
  status : String
  authorId : String
  categoryIds : List String
  tags : List String
  readingTime : Nat
  views : Nat
  likes : Int
  commentsCount : Nat
  featured : Bool
  createdAt : Int
  updatedAt : Int
  publishedAt : Option Int
deriving DecidableEq, Repr

/-- The record view of a filters object (`BlogFilters` from
`blog.interface.ts`); timestamps stand for the `Date` fields. -/
structure BlogFilters where
  search : Option String
  categoryIds : Option (List String)
  tags : Option (List String)
  authorId : Option String
  status : Option String
  featured : Option Bool
  dateFrom : Option Int
  dateTo : Option Int
  sortBy : Option BlogSortBy
  sortDirection : Option SortDir
deriving DecidableEq, Repr

/-- Read a string-valued property of a filters object. -/
def FiltersObj.getStr (o : FiltersObj) (k : String) : Option String :=
  match o.fields.lookup k with
  | some (.jstr s) => some s
  | _ => none

/-- Read a string-array-valued property of a filters object. -/
def FiltersObj.getStrList (o : FiltersObj) (k : String) : Option (List String) :=
  match o.fields.lookup k with
  | some (.jarrStr xs) => some xs
  | _ => none

/-- Read a boolean-valued property of a filters object. -/
def FiltersObj.getBool (o : FiltersObj) (k : String) : Option Bool :=
  match o.fields.lookup k with
  | some (.jbool b) => some b
  | _ => none

/-- Read a Date-valued property of a filters object (as its timestamp). -/
def FiltersObj.getDate (o : FiltersObj) (k : String) : Option Int :=
  match o.fields.lookup k with
  | some (.jdate ms) => some ms
  | _ => none

/-- Parse the `sortBy` property of a filters object.  An unknown string maps
to `none`: the `switch` in `_applySorting` sends it through its `default`
branch, which coincides with the `publishedAt` behaviour used for `none`. -/
def parseSortBy : String → Option BlogSortBy
  | "publishedAt" => some .publishedAt
  | "createdAt" => some .createdAt
  | "updatedAt" => some .updatedAt
  | "title" => some .title
  | "views" => some .views
  | "likes" => some .likes
  | "commentsCount" => some .commentsCount
  | "readingTime" => some .readingTime
  | _ => none

/-- The record view of a filters object, by property access. -/
def FiltersObj.interp (o : FiltersObj) : BlogFilters :=
  { search := o.getStr "search"
    categoryIds := o.getStrList "categoryIds"
    tags := o.getStrList "tags"
    authorId := o.getStr "authorId"
    status := o.getStr "status"
    featured := o.getBool "featured"
    dateFrom := o.getDate "dateFrom"
    dateTo := o.getDate "dateTo"
    sortBy := (o.getStr "sortBy").bind parseSortBy
    sortDirection := match o.getStr "sortDirection" with
      | some "asc" => some .asc
      | some _ => some .desc
      | none => none }

/-- String containment, JavaScript `String.prototype.includes`. -/
def strIncludes (s sub : String) : Bool := decide (sub.data <:+: s.data)

/-- JavaScript `String.prototype.trim`: strip leading and trailing
whitespace. -/
def jsTrim (s : String) : String :=
  ⟨((s.data.dropWhile Char.isWhitespace).reverse.dropWhile Char.isWhitespace).reverse⟩

/-- JavaScript truthiness of an optional string (`undefined` and `""` are
falsy). -/
def truthyStr : Option String → Bool
  | none => false
  | some s => s ≠ ""

/-- `if (b) { l = l.filter(q) }` — one conditional stage of `_applyFilters`. -/
def condFilter (b : Bool) (q : α → Bool) (l : List α) : List α :=
  if b then l.filter q else l

/-- The free-text predicate of `_applyFilters`: case-insensitive containment
in title, excerpt or some tag. -/
def searchPred (term : String) (post : BlogPost) : Bool :=
  let searchTerm := term.toLower
  strIncludes post.title.toLower searchTerm ||
  strIncludes post.excerpt.toLower searchTerm ||
  post.tags.any (fun tag => strIncludes tag.toLower searchTerm)

/-- `BlogService._applyFilters`: the eight conditional filter stages, in
source order (search, categories, tags, author, status, featured, dateFrom,
dateTo).  The initial `[...posts]` copy is the identity on values. -/
def applyFilters (posts : List BlogPost) (filters : BlogFilters) : List BlogPost :=
  let l0 := posts
  let l1 := condFilter (truthyStr filters.search)
    (searchPred (filters.search.getD "")) l0
  let l2 := condFilter (!(filters.categoryIds.getD []).isEmpty)
    (fun post => (filters.categoryIds.getD []).any (fun catId => post.categoryIds.contains catId)) l1
  let l3 := condFilter (!(filters.tags.getD []).isEmpty)
    (fun post => (filters.tags.getD []).any (fun tag => post.tags.contains tag)) l2
  let l4 := condFilter (truthyStr filters.authorId)
    (fun post => post.authorId = filters.authorId.getD "") l3
  let l5 := condFilter (truthyStr filters.status)
    (fun post => post.status = filters.status.getD "") l4
  let l6 := condFilter (filters.featured.getD false) (fun post => post.featured) l5
  let l7 := condFilter filters.dateFrom.isSome
    (fun post => filters.dateFrom.getD 0 ≤ post.publishedAt.getD 0) l6
  let l8 := condFilter filters.dateTo.isSome
    (fun post => post.publishedAt.getD 0 ≤ filters.dateTo.getD 0) l7
  l8

/-- The value the sort comparator compares: a number (timestamps and counters)
or a string (lower-cased title).  For a fixed sort field all posts yield the
same constructor; the cross-constructor cases of the order below are arbitrary
and unreachable. -/
inductive SortValue where
  | num (n : Int)
  | str (s : String)
deriving DecidableEq, Repr

/-- JavaScript `<` on the comparator values. -/
def SortValue.ltb : SortValue → SortValue → Bool
  | .num a, .num b => a < b
  | .str a, .str b => decide (a < b)
  | .num _, .str _ => true
  | .str _, .num _ => false

/-- The `switch (sortBy)` of `_applySorting`: the comparator value extracted
from a post for each sort field.  Timestamp fields go through
`new Date(...).getTime()`; `publishedAt` is read through the non-null
assertion `!` (rendered `getD 0`). -/
def sortKeyOf : BlogSortBy → BlogPost → SortValue
  | .publishedAt, a => .num (a.publishedAt.getD 0)
  | .createdAt, a => .num a.createdAt
  | .updatedAt, a => .num a.updatedAt
  | .title, a => .str a.title.toLower
  | .views, a => .num (a.views : Int)
  | .likes, a => .num a.likes
  | .commentsCount, a => .num (a.commentsCount : Int)
  | .readingTime, a => .num (a.readingTime : Int)

/-- The comparator of `_applySorting` as a function of the direction:
ascending is `a > b ? 1 : a < b ? -1 : 0`, descending is
`a < b ? 1 : a > b ? -1 : 0`. -/
def jsCompare (direction : SortDir) (a b : SortValue) : Int :=
  match direction with
  | .asc => if SortValue.ltb b a then 1 else if SortValue.ltb a b then -1 else 0
  | .desc => if SortValue.ltb a b then 1 else if SortValue.ltb b a then -1 else 0

/-- Insert an element in front of the first position whose element it may
precede (`le a b = true`). -/
def orderedInsert (le : α → α → Bool) (a : α) : List α → List α
  | [] => [a]
  | b :: l => if le a b then a :: b :: l else b :: orderedInsert le a l

/-- Stable insertion sort: the model of ECMAScript `Array.prototype.sort`
with a consistent comparator `cmp`, taking `le a b := cmp a b ≤ 0` (a stable
comparator sort is a unique function of its input, so any correct stable sort
represents the builtin). -/
def sortWith (le : α → α → Bool) : List α → List α
  | [] => []
  | a :: l => orderedInsert le a (sortWith le l)

/-- `BlogService._applySorting`: copy the array and sort it with the
comparator selected by `sortBy`/`direction`.  The `Option` parameters carry
the TypeScript default parameters (`'publishedAt'`, `'desc'`), applied when a
caller passes `undefined`. -/
def applySorting (posts : List BlogPost) (sortBy : Option BlogSortBy)
    (direction : Option SortDir) : List BlogPost :=
  let key := sortKeyOf (sortBy.getD .publishedAt)
  let dir := direction.getD .desc
  sortWith (fun a b => jsCompare dir (key a) (key b) ≤ 0) posts

/-- `BlogService._applyPagination`: `posts.slice((page-1)*pageSize,
(page-1)*pageSize + pageSize)`. -/
def applyPagination (posts : List BlogPost) (page pageSize : Nat) : List BlogPost :=
  ((posts.drop ((page - 1) * pageSize)).take pageSize)

/-- `Math.ceil(total / pageSize)` for natural arguments with `pageSize > 0`. -/
def ceilDiv (total pageSize : Nat) : Nat := (total + pageSize - 1) / pageSize

/-- `BlogPagination` from `blog.interface.ts`. -/
structure BlogPagination where
  currentPage : Nat
  totalPages : Nat
  totalItems : Nat
  itemsPerPage : Nat
  hasPrevious : Bool
  hasNext : Bool
deriving DecidableEq, Repr

/-- `BlogPostsResponse` from `blog.interface.ts`.  The `filters` field is
optional in the interface but always populated by `_buildResponse`, so it is
modelled as the filters object that was passed through. -/
structure BlogPostsResponse where
  data : List BlogPost
  pagination : BlogPagination
  filters : FiltersObj
deriving DecidableEq, Repr

/-- `BlogService._buildResponse`: assemble the paginated response.
`totalItems` is the optional last argument (`total = totalItems ?? posts.length`). -/
def buildResponse (posts : List BlogPost) (page pageSize : Nat) (filters : FiltersObj)
    (totalItems : Option Nat) : BlogPostsResponse :=
  let total := totalItems.getD posts.length
  let totalPages := ceilDiv total pageSize
  { data := posts
    pagination :=
      { currentPage := page
        totalPages := totalPages
        totalItems := total
        itemsPerPage := pageSize
        hasPrevious := decide (1 < page)
        hasNext := decide (page < totalPages) }
    filters := filters }

/-- `BlogService._generateCacheKey`:
the template string `page + "-" + pageSize + "-" + JSON.stringify(filters)`. -/
def generateCacheKey (page pageSize : Nat) (filters : FiltersObj) : String :=
  toString page ++ "-" ++ toString pageSize ++ "-" ++ stringifyObj filters

/-- JavaScript `Map.get` (keys in the map are unique, as `Map.set`
maintains). -/
def mapGet (k : String) : List (String × α) → Option α
  | [] => none
  | (k', v') :: rest => if k' = k then some v' else mapGet k rest

/-- JavaScript `Map.set`: replace the binding in place if the key is present,
else append. -/
def mapSet (k : String) (v : α) : List (String × α) → List (String × α)
  | [] => [(k, v)]
  | (k', v') :: rest => if k' = k then (k, v) :: rest else (k', v') :: mapSet k v rest

/-- `BlogLoadingState` from `blog.interface.ts`. -/
structure BlogLoadingState where
  loading : Bool
  error : Bool
  errorMessage : Option String
  initialLoad : Bool
  loadingMore : Bool
deriving DecidableEq, Repr

/-- The mutable instance state of `BlogService`: the two cache maps, the
loading signal, the `BehaviorSubject`s, and the module-level mutable mock
store `BLOG_POSTS_MOCK` (mutated in place by `incrementViews`/`toggleLike`).

Aliasing: in the source, the arrays stored in `_postsCache` hold references
to the very post objects of `BLOG_POSTS_MOCK` (`[...posts]`, `filter` and
`sort` copy arrays, never objects), so an in-place mutation of a post is
visible through every cached list.  The value model realizes this aliasing by
having the write operations apply the object mutation to every copy of that
post — in the store and in every cached list (`mutateAliases`); since `id` is
unique within the store, all copies with the written post's id stand for the
one mutated object, and every read observes the same values as in the
source. -/
structure BlogServiceState where
  postsCache : List (String × List BlogPost)
  lastFetchTime : List (String × Int)
  loadingState : BlogLoadingState
  currentFilters : FiltersObj
  currentPage : Nat
  store : List BlogPost
deriving DecidableEq, Repr

/-- `CACHE_DURATION = 5 * 60 * 1000`. -/
def CACHE_DURATION : Int := 5 * 60 * 1000

/-- `BlogService._setLoading`. -/
def setLoading (loading : Bool) (s : BlogServiceState) : BlogServiceState :=
  { s with loadingState :=
      { s.loadingState with
        loading := loading
        error := false
        errorMessage := none
        initialLoad :=
          if s.loadingState.initialLoad && !loading then false
          else s.loadingState.initialLoad } }

/-- `BlogService._isCacheValid`: a fetch time is recorded for the key and
`now - lastFetch < CACHE_DURATION`. -/
def isCacheValid (cacheKey : String) (now : Int) (s : BlogServiceState) : Bool :=
  match mapGet cacheKey s.lastFetchTime with
  | none => false
  | some lastFetch => now - lastFetch < CACHE_DURATION

/-- `getPublishedPosts` from `blog-mock.data.ts`. -/
def getPublishedPosts (store : List BlogPost) : List BlogPost :=
  store.filter (fun post => post.status = "published")

/-- `getPostById` from `blog-mock.data.ts` (`Array.prototype.find`). -/
def findPostById (store : List BlogPost) (id : String) : Option BlogPost :=
  store.find? (fun post => post.id = id)

/-- `getPostBySlug` from `blog-mock.data.ts`. -/
def findPostBySlug (store : List BlogPost) (slug : String) : Option BlogPost :=
  store.find? (fun post => post.slug = slug)

/-- `searchPosts` from `blog-mock.data.ts`: published posts whose title,
excerpt or some tag contains the lower-cased term. -/
def searchPostsData (term : String) (store : List BlogPost) : List BlogPost :=
  let lowercaseTerm := term.toLower
  store.filter (fun post =>
    post.status = "published" &&
    (strIncludes post.title.toLower lowercaseTerm ||
     strIncludes post.excerpt.toLower lowercaseTerm ||
     post.tags.any (fun tag => strIncludes tag.toLower lowercaseTerm)))

/-- The cache-miss branch of `BlogService.getPosts` (the body of the `map`
operator): filter and sort the published posts, record the *unpaginated*
sorted list in both cache maps, paginate, publish filters/page on the
subjects, clear the loading flag and assemble the response with
`totalItems = posts.length`. -/
def getPostsCompute (page pageSize : Nat) (filters : FiltersObj) (now : Int)
    (s : BlogServiceState) (cacheKey : String) : BlogPostsResponse × BlogServiceState :=
  let f := filters.interp
  let posts0 := getPublishedPosts s.store
  let posts1 := applyFilters posts0 f
  let posts2 := applySorting posts1 f.sortBy f.sortDirection
  let s1 := { s with
    postsCache := mapSet cacheKey posts2 s.postsCache
    lastFetchTime := mapSet cacheKey now s.lastFetchTime }
  let paginatedPosts := applyPagination posts2 page pageSize
  let s2 := { setLoading false s1 with currentFilters := filters, currentPage := page }
  (buildResponse paginatedPosts page pageSize filters (some posts2.length), s2)

/-- `BlogService.getPosts`: set loading, derive the cache key; on a valid and
present cache entry return `_buildResponse(cachedPosts, page, pageSize, filters)`
directly (note: `cachedPosts` is the unpaginated filtered-and-sorted list that
the miss branch stored); otherwise run the pipeline.  `Date.now()` is the
explicit `now`. -/
def getPosts (page pageSize : Nat) (filters : FiltersObj) (now : Int)
    (s : BlogServiceState) : BlogPostsResponse × BlogServiceState :=
  let s1 := setLoading true s
  let cacheKey := generateCacheKey page pageSize filters
  if isCacheValid cacheKey now s1 then
    match mapGet cacheKey s1.postsCache with
    | some cachedPosts =>
        (buildResponse cachedPosts page pageSize filters none, setLoading false s1)
    | none => getPostsCompute page pageSize filters now s1 cacheKey
  else
    getPostsCompute page pageSize filters now s1 cacheKey

/-- `BlogService.getPostById`: set loading, look the post up, clear loading,
return `post || null`. -/
def getPostById (id : String) (s : BlogServiceState) :
    Option BlogPost × BlogServiceState :=
  let s1 := setLoading true s
  (findPostById s.store id, setLoading false s1)

/-- `BlogService.getPostBySlug`. -/
def getPostBySlug (slug : String) (s : BlogServiceState) :
    Option BlogPost × BlogServiceState :=
  let s1 := setLoading true s
  (findPostBySlug s.store slug, setLoading false s1)

/-- `BlogService.searchPosts`: an empty or whitespace-only term short-circuits
to `of([])` before `_setLoading(true)` runs; otherwise the mock search result
is filtered and sorted. -/
def searchPosts (term : String) (filters : FiltersObj) (s : BlogServiceState) :
    List BlogPost × BlogServiceState :=
  if jsTrim term = "" then ([], s)
  else
    let s1 := setLoading true s
    let f := filters.interp
    let posts0 := searchPostsData term s.store
    let posts1 := applyFilters posts0 f
    let posts2 := applySorting posts1 f.sortBy f.sortDirection
    (posts2, setLoading false s1)

/-- The in-place mutation of the single post object with the given id, seen
through all of its aliases: `getPostById` returns a reference to the store
object with this id and the write mutates that object; the store array and
every cached array reference the same object (ids are unique within the
store), so in the value model the mutation updates every copy of that post in
the store and in every `_postsCache` entry.  No cache entry is added, removed
or re-keyed, and `_lastFetchTime` is untouched. -/
def mutateAliases (postId : String) (f : BlogPost → BlogPost)
    (s : BlogServiceState) : BlogServiceState :=
  let mutate := fun (p : BlogPost) => if p.id = postId then f p else p
  { s with
    store := s.store.map mutate
    postsCache := s.postsCache.map (fun kv => (kv.1, kv.2.map mutate)) }

/-- `BlogService.incrementViews`: find the post in the mock store and bump its
`views` counter in place (`post.views += 1` — visible through the store and
through every cached list that aliases the object); `true` on success, `false`
when the id matches no post. -/
def incrementViews (postId : String) (s : BlogServiceState) :
    Bool × BlogServiceState :=
  match findPostById s.store postId with
  | some _ =>
      (true, mutateAliases postId (fun post => { post with views := post.views + 1 }) s)
  | none => (false, s)

/-- `BlogService.toggleLike`: find the post and add `liked ? 1 : -1` to its
`likes` in place (`Math.random() > 0.5` is the explicit `liked` argument; the
mutation is visible through every alias of the object, as for
`incrementViews`); throws `Post no encontrado` when the id matches no post. -/
def toggleLike (postId : String) (liked : Bool) (s : BlogServiceState) :
    Except String (Bool × Int) × BlogServiceState :=
  match findPostById s.store postId with
  | some post =>
      (Except.ok (liked, post.likes + (if liked then 1 else -1)),
       mutateAliases postId (fun p => { p with likes := p.likes + (if liked then 1 else -1) }) s)
  | none => (Except.error "Post no encontrado", s)

/-- `BlogService.clearCache`. -/
def clearCache (s : BlogServiceState) : BlogServiceState :=
  { s with postsCache := [], lastFetchTime := [] }

end Blog

namespace Categoria

open Blog (SortDir sortWith jsCompare SortValue ceilDiv BlogPagination strIncludes condFilter truthyStr jsTrim)

/-- `BlogCategory` from `categoria.interface.ts`.  Fields never read by the
functions under study (`icon`, `image`, populated relations, the non-keyword
SEO metadata) are omitted; `seoKeywords` is `seo.keywords`, the only SEO field
the search reads. -/
structure BlogCategory where
  id : String
  name : String
  slug : String
  description : String
  color : String
  parentId : Option String
  postsCount : Nat
  isActive : Bool
  order : Nat
  seoKeywords : List String
deriving DecidableEq, Repr

/-- `CategorySortBy` from `categoria.interface.ts`. -/
inductive CategorySortBy where
  | name | postsCount | order | createdAt | updatedAt
deriving DecidableEq, Repr

/-- `CategoryFilters` from `categoria.interface.ts`. -/
structure CategoryFilters where
  search : Option String
  activeOnly : Option Bool
  parentOnly : Option Bool
  parentId : Option String
  color : Option String
  sortBy : Option CategorySortBy
  sortDirection : Option SortDir
deriving DecidableEq, Repr

/-- `CategoriaService._applyFilters`: the five conditional stages in source
order (search over name/description, activeOnly, parentOnly, parentId, color).
Note `if (filters.parentOnly)` and `if (filters.activeOnly)` are truthiness
tests, so `false` behaves as unset; `!cat.parentId` is truthiness of the
optional string (absent or empty string). -/
def applyFilters (categories : List BlogCategory) (filters : CategoryFilters) :
    List BlogCategory :=
  let l0 := categories
  let l1 := condFilter (truthyStr filters.search)
    (fun cat =>
      strIncludes cat.name.toLower (filters.search.getD "").toLower ||
      strIncludes cat.description.toLower (filters.search.getD "").toLower) l0
  let l2 := condFilter (filters.activeOnly.getD false) (fun cat => cat.isActive) l1
  let l3 := condFilter (filters.parentOnly.getD false)
    (fun cat => !(truthyStr cat.parentId)) l2
  let l4 := condFilter (truthyStr filters.parentId)
    (fun cat => cat.parentId = some (filters.parentId.getD "")) l3
  let l5 := condFilter (truthyStr filters.color)
    (fun cat => cat.color = filters.color.getD "") l4
  l5

/-- The comparator value of `CategoriaService._applySorting` for each sort
field.  The `createdAt`/`updatedAt` branches evaluate
`new Date(cat.name).getTime()` (a fallback the source comments on, since the
mock lacks those fields); `parseDate` abstracts the JavaScript date parser,
which no claim depends on. -/
def sortKeyOf (parseDate : String → Int) : CategorySortBy → BlogCategory → SortValue
  | .name, a => .str a.name.toLower
  | .postsCount, a => .num (a.postsCount : Int)
  | .order, a => .num (a.order : Int)
  | .createdAt, a => .num (parseDate a.name)
  | .updatedAt, a => .num (parseDate a.name)

/-- `CategoriaService._applySorting`; TypeScript defaults are `'order'` and
`'asc'`. -/
def applySorting (parseDate : String → Int) (categories : List BlogCategory)
    (sortBy : Option CategorySortBy) (direction : Option SortDir) : List BlogCategory :=
  let key := sortKeyOf parseDate (sortBy.getD .order)
  let dir := direction.getD .asc
  sortWith (fun a b => jsCompare dir (key a) (key b) ≤ 0) categories

/-- `CategoriaService._applyPagination`. -/
def applyPagination (categories : List BlogCategory) (page pageSize : Nat) :
    List BlogCategory :=
  ((categories.drop ((page - 1) * pageSize)).take pageSize)

/-- `CategoriesResponse` as assembled inline by `getCategories`. -/
structure CategoriesResponse where
  data : List BlogCategory
  pagination : BlogPagination
deriving DecidableEq, Repr

/-- The body of `CategoriaService.getCategories` from the filtered list
onward: filter, sort, paginate, and assemble the inline pagination descriptor
with `totalPages = Math.ceil(categories.length / pageSize)` and
`hasNext = page * pageSize < categories.length`.  The `categories` argument
is the list `_getCachedCategories()` returns (a copy of `CATEGORIES_MOCK`). -/
def getCategories (parseDate : String → Int) (categories : List BlogCategory)
    (page pageSize : Nat) (filters : CategoryFilters) : CategoriesResponse :=
  let cats1 := applyFilters categories filters
  let cats2 := applySorting parseDate cats1 filters.sortBy filters.sortDirection
  let paginated := applyPagination cats2 page pageSize
  { data := paginated
    pagination :=
      { currentPage := page
        totalPages := ceilDiv cats2.length pageSize
        totalItems := cats2.length
        itemsPerPage := pageSize
        hasPrevious := decide (1 < page)
        hasNext := decide (page * pageSize < cats2.length) } }

/-- The loading/error signals of `CategoriaService`. -/
structure CategoriaServiceState where
  loading : Bool
  error : Option String
  categoriesCache : Option (List BlogCategory)
  lastCacheTime : Int
deriving DecidableEq, Repr

/-- `CategoriaService._setLoading`. -/
def setLoading (loading : Bool) (s : CategoriaServiceState) : CategoriaServiceState :=
  { s with loading := loading, error := if loading then none else s.error }

/-- `searchCategories` from `categorias-mock.data.ts`: categories whose name
or description contains the lower-cased term, or one of whose SEO keywords
contains the term (the keyword itself is not lower-cased in the source). -/
def searchCategoriesData (term : String) (store : List BlogCategory) :
    List BlogCategory :=
  let lowercaseTerm := term.toLower
  store.filter (fun category =>
    strIncludes category.name.toLower lowercaseTerm ||
    strIncludes category.description.toLower lowercaseTerm ||
    category.seoKeywords.any (fun keyword => strIncludes keyword lowercaseTerm))

/-- `CategoriaService.searchCategories`: an empty or whitespace-only term
short-circuits to `of([])` before `_setLoading(true)` runs. -/
def searchCategories (term : String) (store : List BlogCategory)
    (s : CategoriaServiceState) : List BlogCategory × CategoriaServiceState :=
  if jsTrim term = "" then ([], s)
  else
    let s1 := setLoading true s
    (searchCategoriesData term store, setLoading false s1)

end Categoria

namespace Fixtures

open Blog

/-- A sample published post (concrete instances used to evaluate the theorems
on closed inputs). -/
def post1 : BlogPost :=
  { id := "p1", title := "Angular Signals", slug := "angular-signals",
    excerpt := "intro", status := "published", authorId := "a1",
    categoryIds := ["c1"], tags := ["angular"], readingTime := 3, views := 10,
    likes := 5, commentsCount := 1, featured := true, createdAt := 100,
    updatedAt := 200, publishedAt := some 300 }

/-- A second sample published post. -/
def post2 : BlogPost :=
  { id := "p2", title := "Rxjs Basics", slug := "rxjs-basics",
    excerpt := "streams", status := "published", authorId := "a2",
    categoryIds := ["c2"], tags := ["rxjs"], readingTime := 4, views := 20,
    likes := 6, commentsCount := 2, featured := false, createdAt := 110,
    updatedAt := 210, publishedAt := some 250 }

/-- A third sample post, in draft state. -/
def post3 : BlogPost :=
  { id := "p3", title := "Drafting", slug := "drafting",
    excerpt := "wip", status := "draft", authorId := "a1",
    categoryIds := ["c1", "c2"], tags := ["draft"], readingTime := 2, views := 7,
    likes := 2, commentsCount := 0, featured := false, createdAt := 120,
    updatedAt := 220, publishedAt := none }

/-- The empty filters object (the TypeScript default argument). -/
def emptyObj : FiltersObj := ⟨[]⟩

/-- An initial `BlogService` instance state over the sample store: both cache
maps empty, loading state as initialized in the class. -/
def state0 : BlogServiceState :=
  { postsCache := [], lastFetchTime := []
    loadingState := { loading := false, error := false, errorMessage := none,
                      initialLoad := true, loadingMore := false }
    currentFilters := emptyObj, currentPage := 1
    store := [post1, post2, post3] }

/-- The state after one `getPosts(1, 1, {})` call at `t = 0` on `state0`:
the cache holds the filtered-and-sorted published list under the key
`1-1-\x7b\x7d`. -/
def state1 : BlogServiceState :=
  (Blog.getPosts 1 1 emptyObj 0 state0).2

/-- A sample category. -/
def cat1 : Categoria.BlogCategory :=
  { id := "c1", name := "Frontend", slug := "frontend", description := "UI work",
    color := "#ff0000", parentId := none, postsCount := 4, isActive := true,
    order := 1, seoKeywords := ["frontend"] }

/-- An initial `CategoriaService` instance state. -/
def catState0 : Categoria.CategoriaServiceState :=
  { loading := false, error := none, categoriesCache := none, lastCacheTime := 0 }

end Fixtures

/-! ## Arithmetic helpers -/

namespace Blog

theorem le_ceilDiv_mul (N p : Nat) (hp : 0 < p) : N ≤ ceilDiv N p * p := by
  unfold ceilDiv
  have h1 := Nat.div_add_mod (N + p - 1) p
  have h2 : (N + p - 1) % p < p := Nat.mod_lt _ hp
  have h3 : (N + p - 1) / p * p = p * ((N + p - 1) / p) := Nat.mul_comm _ _
  rw [h3]
  omega

theorem lt_ceilDiv_iff (page N s : Nat) (hs : 0 < s) :
    page < ceilDiv N s ↔ page * s < N := by
  unfold ceilDiv
  rw [show page < (N + s - 1) / s ↔ page + 1 ≤ (N + s - 1) / s from Iff.rfl,
    Nat.le_div_iff_mul_le hs, Nat.succ_mul]
  omega

/-- Concatenating the first `k` windows of width `p` of a list gives its first
`k * p` elements. -/
theorem flatten_windows (p k : Nat) (l : List BlogPost) :
    ((List.range k).map (fun i => (l.drop (i * p)).take p)).flatten = l.take (k * p) := by
  induction k with
  | zero => simp
  | succ k ih =>
      rw [List.range_succ, List.map_append, List.flatten_append]
      simp only [List.map_cons, List.map_nil, List.flatten_cons, List.flatten_nil,
        List.append_nil, ih]
      rw [Nat.succ_mul, List.take_add]

end Blog

/-! ## Claim theorems -/

/-- C3: for a positive page size `p`, the slices `_applyPagination` produces
for pages `1 .. ceil(N/p)` concatenate to the whole filtered-and-sorted list
(each element exactly once, none duplicated or omitted), and any page whose
start index `(page-1)*p` is at or beyond the list length yields an empty
slice rather than an error. -/
theorem applyPagination_partition (l : List Blog.BlogPost) (p : Nat) (hp : 0 < p) :
    ((List.range (Blog.ceilDiv l.length p)).map
        (fun i => Blog.applyPagination l (i + 1) p)).flatten = l ∧
    ∀ page, 1 ≤ page → l.length ≤ (page - 1) * p →
      Blog.applyPagination l page p = [] := by
  constructor
  · have h1 : ∀ i : Nat, Blog.applyPagination l (i + 1) p = (l.drop (i * p)).take p := by
      intro i
      simp [Blog.applyPagination]
    simp only [h1]
    rw [Blog.flatten_windows]
    exact List.take_of_length_le (Blog.le_ceilDiv_mul l.length p hp)
  · intro page _ h2
    unfold Blog.applyPagination
    rw [List.drop_eq_nil_of_le h2]
    simp

/-- Witness for C3 on a concrete three-element list with page size 2:
the two pages partition the list, and page 5 is empty. -/
theorem applyPagination_partition_spec :
    0 < 2 ∧
    ((List.range (Blog.ceilDiv ([Fixtures.post1, Fixtures.post2, Fixtures.post3]).length 2)).map
        (fun i => Blog.applyPagination [Fixtures.post1, Fixtures.post2, Fixtures.post3] (i + 1) 2)).flatten =
      [Fixtures.post1, Fixtures.post2, Fixtures.post3] ∧
    Blog.applyPagination [Fixtures.post1, Fixtures.post2, Fixtures.post3] 5 2 = [] :=
  ⟨by decide,
   (applyPagination_partition [Fixtures.post1, Fixtures.post2, Fixtures.post3] 2 (by decide)).1,
   (applyPagination_partition [Fixtures.post1, Fixtures.post2, Fixtures.post3] 2 (by decide)).2
     5 (by decide) (by decide)⟩

/-- C4: every pagination descriptor built by `BlogService._buildResponse` and
by `CategoriaService.getCategories` (for positive page size) satisfies
`totalPages = ceil(totalItems / itemsPerPage)`,
`hasNext ↔ currentPage < totalPages` and `hasPrevious ↔ currentPage > 1`;
in particular the `page * pageSize < totalItems` formula that
`CategoriaService` uses for `hasNext` coincides with
`currentPage < totalPages`. -/
theorem pagination_descriptor_correct
    (posts : List Blog.BlogPost) (page pageSize : Nat) (filters : Blog.FiltersObj)
    (totalItems : Option Nat) (parseDate : String → Int)
    (cats : List Categoria.BlogCategory) (cpage cpageSize : Nat)
    (cfilters : Categoria.CategoryFilters)
    (hps : 0 < pageSize) (hcps : 0 < cpageSize) :
    ((Blog.buildResponse posts page pageSize filters totalItems).pagination.totalPages =
        Blog.ceilDiv (Blog.buildResponse posts page pageSize filters totalItems).pagination.totalItems pageSize ∧
      ((Blog.buildResponse posts page pageSize filters totalItems).pagination.hasNext = true ↔
        page < (Blog.buildResponse posts page pageSize filters totalItems).pagination.totalPages) ∧
      ((Blog.buildResponse posts page pageSize filters totalItems).pagination.hasPrevious = true ↔
        1 < page)) ∧
    ((Categoria.getCategories parseDate cats cpage cpageSize cfilters).pagination.totalPages =
        Blog.ceilDiv (Categoria.getCategories parseDate cats cpage cpageSize cfilters).pagination.totalItems cpageSize ∧
      ((Categoria.getCategories parseDate cats cpage cpageSize cfilters).pagination.hasNext = true ↔
        cpage < (Categoria.getCategories parseDate cats cpage cpageSize cfilters).pagination.totalPages) ∧
      ((Categoria.getCategories parseDate cats cpage cpageSize cfilters).pagination.hasPrevious = true ↔
        1 < cpage)) := by
  refine ⟨⟨rfl, ?_, ?_⟩, ⟨rfl, ?_, ?_⟩⟩
  · simp [Blog.buildResponse]
  · simp [Blog.buildResponse]
  · simp only [Categoria.getCategories, decide_eq_true_eq]
    exact (Blog.lt_ceilDiv_iff _ _ _ hcps).symm
  · simp [Categoria.getCategories]

/-- Witness for C4 at a concrete response (three posts, page 1, size 2) and a
concrete category query. -/
theorem pagination_descriptor_correct_spec :
    (0 : Nat) < 2 ∧
    ((Blog.buildResponse [Fixtures.post1, Fixtures.post2] 1 2 Fixtures.emptyObj (some 3)).pagination.totalPages =
        Blog.ceilDiv 3 2 ∧
      ((Categoria.getCategories (fun _ => 0) [Fixtures.cat1] 1 2 ⟨none, none, none, none, none, none, none⟩).pagination.hasNext = true ↔
        1 < (Categoria.getCategories (fun _ => 0) [Fixtures.cat1] 1 2 ⟨none, none, none, none, none, none, none⟩).pagination.totalPages)) :=
  ⟨by decide,
   (pagination_descriptor_correct [Fixtures.post1, Fixtures.post2] 1 2 Fixtures.emptyObj
      (some 3) (fun _ => 0) [Fixtures.cat1] 1 2 ⟨none, none, none, none, none, none, none⟩
      (by decide) (by decide)).1.1,
   (pagination_descriptor_correct [Fixtures.post1, Fixtures.post2] 1 2 Fixtures.emptyObj
      (some 3) (fun _ => 0) [Fixtures.cat1] 1 2 ⟨none, none, none, none, none, none, none⟩
      (by decide) (by decide)).2.2.1⟩

/-- A post's category set intersects `C` non-emptily exactly when the
`some / includes` test of the category filter stage passes. -/
theorem inter_nonempty_eq_any (ids C : List String) :
    (!(ids ∩ C).isEmpty) = C.any (fun c => ids.contains c) := by
  rw [Bool.eq_iff_iff]
  simp only [Bool.not_eq_true', List.isEmpty_eq_false_iff_exists_mem, List.any_eq_true,
    List.elem_iff, List.mem_inter_iff]
  exact ⟨fun ⟨x, h1, h2⟩ => ⟨x, h2, h1⟩, fun ⟨x, h1, h2⟩ => ⟨x, h2, h1⟩⟩

/-- C5: on a filter object whose only constraint is the category-id set `C`,
`_applyFilters` returns exactly the posts whose `categoryIds` intersect `C`
(as an order-preserving `filter`, the input untouched), and with `C = []` it
returns all of `E` unchanged — the empty array means "no constraint". -/
theorem applyFilters_categoryOnly (E : List Blog.BlogPost) (C : List String) :
    Blog.applyFilters E
      { search := none, categoryIds := some C, tags := none, authorId := none,
        status := none, featured := none, dateFrom := none, dateTo := none,
        sortBy := none, sortDirection := none } =
      if C.isEmpty then E else E.filter (fun post => !(post.categoryIds ∩ C).isEmpty) := by
  simp only [Blog.applyFilters, Blog.condFilter, Blog.truthyStr, Option.getD_some,
    Option.getD_none, Option.isSome_none, Bool.false_eq_true, if_false]
  rcases h : C.isEmpty with _ | _
  · simp only [h, Bool.not_false, if_true, Bool.false_eq_true, if_false]
    exact List.filter_congr (fun post _ => (inter_nonempty_eq_any post.categoryIds C).symm)
  · simp [h]

/-! ## Sorting: correctness of the comparator sort model -/

namespace Blog

theorem orderedInsert_perm (le : α → α → Bool) (a : α) (l : List α) :
    (orderedInsert le a l).Perm (a :: l) := by
  induction l with
  | nil => exact List.Perm.refl _
  | cons b l ih =>
      unfold orderedInsert
      by_cases h : le a b
      · simp [h]
      · simp only [h, Bool.false_eq_true, if_false]
        exact (ih.cons b).trans (List.Perm.swap a b l)

theorem sortWith_perm (le : α → α → Bool) (l : List α) :
    (sortWith le l).Perm l := by
  induction l with
  | nil => exact List.Perm.refl _
  | cons a l ih => exact (orderedInsert_perm le a (sortWith le l)).trans (ih.cons a)

theorem mem_orderedInsert (le : α → α → Bool) (a x : α) (l : List α) :
    x ∈ orderedInsert le a l ↔ x = a ∨ x ∈ l := by
  rw [(orderedInsert_perm le a l).mem_iff]
  simp

theorem orderedInsert_pairwise (le : α → α → Bool)
    (htotal : ∀ x y, le x y = false → le y x = true)
    (htrans : ∀ x y z, le x y = true → le y z = true → le x z = true)
    (a : α) (l : List α) (h : l.Pairwise (fun x y => le x y = true)) :
    (orderedInsert le a l).Pairwise (fun x y => le x y = true) := by
  induction l with
  | nil => simp [orderedInsert]
  | cons b l ih =>
      rcases List.pairwise_cons.1 h with ⟨hb, hl⟩
      unfold orderedInsert
      by_cases hab : le a b
      · simp only [hab, if_true]
        refine List.pairwise_cons.2 ⟨?_, h⟩
        intro y hy
        rcases List.mem_cons.1 hy with rfl | hy
        · exact hab
        · exact htrans a b y hab (hb y hy)
      · simp only [hab, Bool.false_eq_true, if_false]
        refine List.pairwise_cons.2 ⟨?_, ih hl⟩
        intro y hy
        rcases (mem_orderedInsert le a y l).1 hy with rfl | hy
        · exact htotal _ b (Bool.eq_false_iff.mpr hab)
        · exact hb y hy

theorem sortWith_pairwise (le : α → α → Bool)
    (htotal : ∀ x y, le x y = false → le y x = true)
    (htrans : ∀ x y z, le x y = true → le y z = true → le x z = true)
    (l : List α) : (sortWith le l).Pairwise (fun x y => le x y = true) := by
  induction l with
  | nil => simp [sortWith]
  | cons a l ih => exact orderedInsert_pairwise le htotal htrans a (sortWith le l) ih

/-- Two pairwise-`r`-ordered permutations of each other are equal, given
antisymmetry of `r` on the elements involved. -/
theorem perm_pairwise_eq {r : α → α → Prop} {l₁ l₂ : List α}
    (anti : ∀ a ∈ l₁, ∀ b ∈ l₁, r a b → r b a → a = b)
    (hp : l₁.Perm l₂) (hs₁ : l₁.Pairwise r) (hs₂ : l₂.Pairwise r) : l₁ = l₂ := by
  induction l₁ generalizing l₂ with
  | nil => exact hp.nil_eq
  | cons a t ih =>
      have ha : a ∈ l₂ := hp.subset (List.mem_cons_self a t)
      obtain ⟨u, v, rfl⟩ := List.append_of_mem ha
      have hp' : t.Perm (u ++ v) := (List.perm_cons a).1 (hp.trans List.perm_middle)
      rcases List.pairwise_cons.1 hs₁ with ⟨hat, hst⟩
      have hua : ∀ x ∈ u, x = a := by
        intro x hxu
        have hxt : x ∈ t := hp'.symm.subset (List.mem_append_left v hxu)
        have h1 : r a x := hat x hxt
        have h2 : r x a :=
          (List.pairwise_append.1 hs₂).2.2 x hxu a (List.mem_cons_self a v)
        exact anti x (List.mem_cons_of_mem a hxt) a (List.mem_cons_self a t) h2 h1
      have anti' : ∀ x ∈ t, ∀ y ∈ t, r x y → r y x → x = y := fun x hx y hy =>
        anti x (List.mem_cons_of_mem a hx) y (List.mem_cons_of_mem a hy)
      have hsuv : (u ++ v).Pairwise r :=
        hs₂.sublist (List.Sublist.append_left (List.sublist_cons_self a v) u)
      have ht : t = u ++ v := ih anti' hp' hst hsuv
      subst ht
      obtain ⟨n, rfl⟩ : ∃ n, u = List.replicate n a :=
        ⟨u.length, List.eq_replicate_of_mem hua⟩
      clear ih hua hp hp' hs₁ hs₂ hat hst hsuv anti anti' ha
      induction n with
      | zero => simp
      | succ n ihn =>
          simp only [List.replicate_succ, List.cons_append, List.cons.injEq, true_and]
          exact ihn

end Blog

namespace Blog

theorem SortValue.ltb_asymm : ∀ {a b : SortValue},
    SortValue.ltb a b = true → SortValue.ltb b a = false
  | .num a, .num b, h => by
      simp only [SortValue.ltb, decide_eq_true_eq] at h
      simp only [SortValue.ltb, decide_eq_false_iff_not]
      omega
  | .str a, .str b, h => by
      simp only [SortValue.ltb, decide_eq_true_eq] at h
      simp only [SortValue.ltb, decide_eq_false_iff_not]
      exact lt_asymm h
  | .num _, .str _, _ => rfl
  | .str _, .num _, h => by simp [SortValue.ltb] at h

theorem SortValue.eq_of_not_ltb : ∀ {a b : SortValue},
    SortValue.ltb a b = false → SortValue.ltb b a = false → a = b
  | .num a, .num b, h1, h2 => by
      simp only [SortValue.ltb, decide_eq_false_iff_not, Int.not_lt] at h1 h2
      exact congrArg SortValue.num (le_antisymm h2 h1)
  | .str a, .str b, h1, h2 => by
      simp only [SortValue.ltb, decide_eq_false_iff_not, not_lt] at h1 h2
      exact congrArg SortValue.str (le_antisymm h2 h1)
  | .num _, .str _, h1, _ => by simp [SortValue.ltb] at h1
  | .str _, .num _, _, h2 => by simp [SortValue.ltb] at h2

theorem SortValue.not_ltb_trans : ∀ {a b c : SortValue},
    SortValue.ltb b a = false → SortValue.ltb c b = false → SortValue.ltb c a = false
  | .num a, .num b, .num c, h1, h2 => by
      simp only [SortValue.ltb, decide_eq_false_iff_not, Int.not_lt] at h1 h2 ⊢
      omega
  | .str a, .str b, .str c, h1, h2 => by
      simp only [SortValue.ltb, decide_eq_false_iff_not, not_lt] at h1 h2 ⊢
      exact le_trans h1 h2
  | _, .str _, .num _, _, h2 => by simp [SortValue.ltb] at h2
  | .str _, .num _, _, h1, _ => by simp [SortValue.ltb] at h1
  | .num _, _, .str _, _, _ => rfl

theorem jsCompare_asc_le_iff (x y : SortValue) :
    jsCompare .asc x y ≤ 0 ↔ SortValue.ltb y x = false := by
  unfold jsCompare
  rcases h : SortValue.ltb y x with _ | _
  · simp only [h, Bool.false_eq_true, if_false, iff_true]
    split <;> omega
  · simp [h]

theorem jsCompare_desc_le_iff (x y : SortValue) :
    jsCompare .desc x y ≤ 0 ↔ SortValue.ltb x y = false := by
  unfold jsCompare
  rcases h : SortValue.ltb x y with _ | _
  · simp only [h, Bool.false_eq_true, if_false, iff_true]
    split <;> omega
  · simp [h]

end Blog

/-- C6: `_applySorting` is deterministic — repeated invocations on the same
collection, field and direction produce the identical ordering (the model is
a pure function of its input) — and when the chosen sort key takes pairwise
distinct values on the collection, sorting in `'desc'` yields exactly the
reverse of the `'asc'` ordering. -/
theorem applySorting_deterministic_reverse (posts : List Blog.BlogPost)
    (sortBy : Option Blog.BlogSortBy)
    (hkeys : (posts.map (Blog.sortKeyOf (sortBy.getD .publishedAt))).Nodup) :
    (∀ direction : Option Blog.SortDir,
      Blog.applySorting posts sortBy direction = Blog.applySorting posts sortBy direction) ∧
    Blog.applySorting posts sortBy (some .desc) =
      (Blog.applySorting posts sortBy (some .asc)).reverse := by
  refine ⟨fun _ => rfl, ?_⟩
  set key := Blog.sortKeyOf (sortBy.getD .publishedAt) with hkey
  set leA : Blog.BlogPost → Blog.BlogPost → Bool :=
    fun a b => decide (Blog.jsCompare .asc (key a) (key b) ≤ 0) with hleA
  set leD : Blog.BlogPost → Blog.BlogPost → Bool :=
    fun a b => decide (Blog.jsCompare .desc (key a) (key b) ≤ 0) with hleD
  have charA : ∀ x y, leA x y = true ↔ Blog.SortValue.ltb (key y) (key x) = false := by
    intro x y
    rw [hleA]
    simp only [decide_eq_true_eq]
    exact Blog.jsCompare_asc_le_iff (key x) (key y)
  have charD : ∀ x y, leD x y = true ↔ Blog.SortValue.ltb (key x) (key y) = false := by
    intro x y
    rw [hleD]
    simp only [decide_eq_true_eq]
    exact Blog.jsCompare_desc_le_iff (key x) (key y)
  have htotalA : ∀ x y, leA x y = false → leA y x = true := by
    intro x y h
    rw [charA]
    have h1 : Blog.SortValue.ltb (key y) (key x) = true := by
      rcases h2 : Blog.SortValue.ltb (key y) (key x) with _ | _
      · have h3 := (charA x y).mpr h2
        rw [h] at h3
        cases h3
      · rfl
    exact Blog.SortValue.ltb_asymm h1
  have htransA : ∀ x y z, leA x y = true → leA y z = true → leA x z = true := by
    intro x y z h1 h2
    rw [charA] at h1 h2 ⊢
    exact Blog.SortValue.not_ltb_trans h1 h2
  have htotalD : ∀ x y, leD x y = false → leD y x = true := by
    intro x y h
    rw [charD]
    have h1 : Blog.SortValue.ltb (key x) (key y) = true := by
      rcases h2 : Blog.SortValue.ltb (key x) (key y) with _ | _
      · have h3 := (charD x y).mpr h2
        rw [h] at h3
        cases h3
      · rfl
    exact Blog.SortValue.ltb_asymm h1
  have htransD : ∀ x y z, leD x y = true → leD y z = true → leD x z = true := by
    intro x y z h1 h2
    rw [charD] at h1 h2 ⊢
    exact Blog.SortValue.not_ltb_trans h2 h1
  have hAeq : Blog.applySorting posts sortBy (some .asc) = Blog.sortWith leA posts := rfl
  have hDeq : Blog.applySorting posts sortBy (some .desc) = Blog.sortWith leD posts := rfl
  rw [hAeq, hDeq]
  set A := Blog.sortWith leA posts with hA
  set D := Blog.sortWith leD posts with hD
  have hApair : A.Pairwise (fun x y => leA x y = true) :=
    Blog.sortWith_pairwise leA htotalA htransA posts
  have hDpair : D.Pairwise (fun x y => leD x y = true) :=
    Blog.sortWith_pairwise leD htotalD htransD posts
  have hArevpair : A.reverse.Pairwise (fun x y => leD x y = true) := by
    rw [List.pairwise_reverse]
    refine hApair.imp ?_
    intro a b h
    rw [charA] at h
    exact (charD b a).mpr h
  have hperm : A.reverse.Perm D :=
    ((A.reverse_perm).trans (Blog.sortWith_perm leA posts)).trans
      (Blog.sortWith_perm leD posts).symm
  have hmem : ∀ x, x ∈ A.reverse → x ∈ posts := by
    intro x hx
    exact (Blog.sortWith_perm leA posts).subset (A.reverse_perm.subset hx)
  have anti : ∀ x ∈ A.reverse, ∀ y ∈ A.reverse, leD x y = true → leD y x = true → x = y := by
    intro x hx y hy h1 h2
    rw [charD] at h1 h2
    have hk : key x = key y := Blog.SortValue.eq_of_not_ltb h1 h2
    exact List.inj_on_of_nodup_map hkeys (hmem x hx) (hmem y hy) hk
  exact (Blog.perm_pairwise_eq anti hperm hArevpair hDpair).symm

/-- Witness for C6 at a concrete two-post list with distinct view counts,
sorted by `views`. -/
theorem applySorting_deterministic_reverse_spec :
    ([Fixtures.post1, Fixtures.post2].map (Blog.sortKeyOf ((some Blog.BlogSortBy.views).getD .publishedAt))).Nodup ∧
    Blog.applySorting [Fixtures.post1, Fixtures.post2] (some .views) (some .desc) =
      (Blog.applySorting [Fixtures.post1, Fixtures.post2] (some .views) (some .asc)).reverse :=
  ⟨by decide,
   (applySorting_deterministic_reverse [Fixtures.post1, Fixtures.post2] (some .views)
     (by decide)).2⟩

/-! ## Cache and pipeline helper lemmas -/

namespace Blog

theorem mapGet_mem {m : List (String × α)} {k : String} {v : α}
    (h : mapGet k m = some v) : (k, v) ∈ m := by
  induction m with
  | nil => cases h
  | cons kv m ih =>
      rcases kv with ⟨k', v'⟩
      unfold mapGet at h
      by_cases hk : k' = k
      · simp only [hk, if_true] at h
        injection h with h
        subst hk
        subst h
        exact List.mem_cons_self _ _
      · simp only [hk, if_false] at h
        exact List.mem_cons_of_mem _ (ih h)

theorem mapSet_mem {m : List (String × α)} {key k : String} {val v : α}
    (h : (k, v) ∈ mapSet key val m) : (k = key ∧ v = val) ∨ (k, v) ∈ m := by
  induction m with
  | nil =>
      simp only [mapSet, List.mem_singleton] at h
      left
      exact ⟨congrArg Prod.fst h, congrArg Prod.snd h⟩
  | cons kv m ih =>
      rcases kv with ⟨k', v'⟩
      unfold mapSet at h
      by_cases hk : k' = key
      · simp only [hk, if_true] at h
        rcases List.mem_cons.1 h with he | hm
        · left
          exact ⟨congrArg Prod.fst he, congrArg Prod.snd he⟩
        · right
          exact List.mem_cons_of_mem _ hm
      · simp only [hk, if_false] at h
        rcases List.mem_cons.1 h with he | hm
        · right
          exact List.mem_cons.2 (Or.inl he)
        · rcases ih hm with h1 | h2
          · exact Or.inl h1
          · exact Or.inr (List.mem_cons_of_mem _ h2)

theorem mem_of_mem_condFilter {b : Bool} {q : α → Bool} {l : List α} {x : α}
    (h : x ∈ condFilter b q l) : x ∈ l := by
  unfold condFilter at h
  rcases b with _ | _
  · exact h
  · exact List.mem_of_mem_filter h

theorem mem_of_mem_applyFilters {posts : List BlogPost} {filters : BlogFilters}
    {p : BlogPost} (h : p ∈ applyFilters posts filters) : p ∈ posts := by
  unfold applyFilters at h
  exact mem_of_mem_condFilter (mem_of_mem_condFilter (mem_of_mem_condFilter
    (mem_of_mem_condFilter (mem_of_mem_condFilter (mem_of_mem_condFilter
      (mem_of_mem_condFilter (mem_of_mem_condFilter h)))))))

theorem mem_of_mem_applySorting {posts : List BlogPost} {sortBy : Option BlogSortBy}
    {direction : Option SortDir} {p : BlogPost}
    (h : p ∈ applySorting posts sortBy direction) : p ∈ posts := by
  unfold applySorting at h
  exact (sortWith_perm _ posts).subset h

theorem mem_of_mem_applyPagination {posts : List BlogPost} {page pageSize : Nat}
    {p : BlogPost} (h : p ∈ applyPagination posts page pageSize) : p ∈ posts := by
  unfold applyPagination at h
  exact List.mem_of_mem_drop (List.mem_of_mem_take h)

theorem getPublishedPosts_status {store : List BlogPost} {p : BlogPost}
    (h : p ∈ getPublishedPosts store) : p.status = "published" := by
  unfold getPublishedPosts at h
  have := List.of_mem_filter h
  simpa using this

theorem setLoading_postsCache (b : Bool) (s : BlogServiceState) :
    (setLoading b s).postsCache = s.postsCache := rfl

theorem setLoading_lastFetchTime (b : Bool) (s : BlogServiceState) :
    (setLoading b s).lastFetchTime = s.lastFetchTime := rfl

/-- The cache-hit branch of `getPosts`: a valid, present entry is returned
through `_buildResponse` with no `totalItems` argument. -/
theorem getPosts_hit (page pageSize : Nat) (filters : FiltersObj) (now : Int)
    (s : BlogServiceState) (cached : List BlogPost)
    (hvalid : isCacheValid (generateCacheKey page pageSize filters) now s = true)
    (hcached : mapGet (generateCacheKey page pageSize filters) s.postsCache = some cached) :
    getPosts page pageSize filters now s =
      (buildResponse cached page pageSize filters none, setLoading false (setLoading true s)) := by
  have hvalid' : isCacheValid (generateCacheKey page pageSize filters) now (setLoading true s) = true := hvalid
  have hcached' : mapGet (generateCacheKey page pageSize filters) (setLoading true s).postsCache = some cached := hcached
  simp only [getPosts]
  rw [if_pos hvalid', hcached']

end Blog

namespace Blog

/-- Everything the miss branch produces — both the response data and every
list in the updated cache — consists of published posts, provided the
incoming cache already satisfied that invariant. -/
theorem getPostsCompute_only_published (page pageSize : Nat) (filters : FiltersObj)
    (now : Int) (s : BlogServiceState) (cacheKey : String)
    (hwf : ∀ k l, (k, l) ∈ s.postsCache → ∀ p ∈ l, p.status = "published") :
    (∀ p ∈ (getPostsCompute page pageSize filters now s cacheKey).1.data,
      p.status = "published") ∧
    (∀ k l, (k, l) ∈ (getPostsCompute page pageSize filters now s cacheKey).2.postsCache →
      ∀ p ∈ l, p.status = "published") := by
  have hsorted : ∀ p ∈ applySorting (applyFilters (getPublishedPosts s.store)
      filters.interp) filters.interp.sortBy filters.interp.sortDirection,
      p.status = "published" := by
    intro p hp
    exact getPublishedPosts_status
      (mem_of_mem_applyFilters (mem_of_mem_applySorting hp))
  constructor
  · intro p hp
    exact hsorted p (mem_of_mem_applyPagination hp)
  · intro k l hkl p hp
    rcases mapSet_mem hkl with ⟨_, hl⟩ | hm
    · subst hl
      exact hsorted p hp
    · exact hwf k l hm p hp

end Blog

/-- C7: every post in the `data` array of a `BlogService.getPosts` result —
on the cache-hit path as well as the cache-miss path — has status
`'published'`, provided every list already in the query cache consists of
published posts (the invariant the method itself maintains, restated in the
second conjunct; it holds trivially of the initial empty cache). -/
theorem getPosts_only_published (page pageSize : Nat) (filters : Blog.FiltersObj)
    (now : Int) (s : Blog.BlogServiceState)
    (hwf : ∀ k l, (k, l) ∈ s.postsCache → ∀ p ∈ l, p.status = "published") :
    (∀ p ∈ (Blog.getPosts page pageSize filters now s).1.data, p.status = "published") ∧
    (∀ k l, (k, l) ∈ (Blog.getPosts page pageSize filters now s).2.postsCache →
      ∀ p ∈ l, p.status = "published") := by
  simp only [Blog.getPosts]
  split
  · rcases hcase : Blog.mapGet (Blog.generateCacheKey page pageSize filters)
        (Blog.setLoading true s).postsCache with _ | cached
    · exact Blog.getPostsCompute_only_published page pageSize filters now
        (Blog.setLoading true s) _ hwf
    · have hmem : (Blog.generateCacheKey page pageSize filters, cached) ∈ s.postsCache :=
        Blog.mapGet_mem hcase
      exact ⟨fun p hp => hwf _ _ hmem p hp, fun k l hkl => hwf k l hkl⟩
  · exact Blog.getPostsCompute_only_published page pageSize filters now
      (Blog.setLoading true s) _ hwf

/-- Witness for C7: starting from the empty cache over the sample store
(which contains a draft post), the first page of results contains only
published posts. -/
theorem getPosts_only_published_spec :
    ((Blog.getPosts 1 2 Fixtures.emptyObj 0 Fixtures.state0).1.data.all
      (fun p => p.status == "published")) = true := by
  have h := (getPosts_only_published 1 2 Fixtures.emptyObj 0 Fixtures.state0
    (fun _ _ hkl => absurd hkl (List.not_mem_nil _))).1
  rw [List.all_eq_true]
  intro p hp
  rw [beq_iff_eq]
  exact h p hp

namespace Blog

theorem map_fst_map_pair (g : List BlogPost → List BlogPost)
    (m : List (String × List BlogPost)) :
    (m.map (fun kv => (kv.1, g kv.2))).map Prod.fst = m.map Prod.fst := by
  induction m with
  | nil => rfl
  | cons kv m ih => simp only [List.map_cons, ih]

/-- `mutateAliases` rewrites each cached list in place: the key sequence of
the cache is untouched. -/
theorem mutateAliases_cache_keys (postId : String) (f : BlogPost → BlogPost)
    (s : BlogServiceState) :
    (mutateAliases postId f s).postsCache.map Prod.fst = s.postsCache.map Prod.fst :=
  map_fst_map_pair _ s.postsCache

theorem mutateAliases_lastFetchTime (postId : String) (f : BlogPost → BlogPost)
    (s : BlogServiceState) :
    (mutateAliases postId f s).lastFetchTime = s.lastFetchTime := rfl

/-- Looking a key up after rewriting every entry's value gives the rewritten
value. -/
theorem mapGet_map (g : List BlogPost → List BlogPost) (k : String)
    (m : List (String × List BlogPost)) :
    mapGet k (m.map (fun kv => (kv.1, g kv.2))) = (mapGet k m).map g := by
  induction m with
  | nil => rfl
  | cons kv m ih =>
      rcases kv with ⟨k', v'⟩
      unfold mapGet
      by_cases hk : k' = k
      · simp only [List.map_cons, hk, if_true]
        rfl
      · simp only [List.map_cons, hk, if_false]
        exact ih

end Blog

/-- C8 counterexample: with the cache entry for `(page 1, size 1, {})`
populated at `t = 0`, `incrementViews "p1"` changes the cached list itself —
the cached arrays alias the mutated post object — and the cache-hit `getPosts`
at `t = 1000` (within the TTL) returns a response that differs from the one
the same call produced before the write (the served page shows `views = 11`
instead of `10`): the cached page is NOT returned unchanged. -/
theorem writes_cache_staleness_counterexample :
    (Blog.incrementViews "p1" Fixtures.state1).2.postsCache ≠ Fixtures.state1.postsCache ∧
    (Blog.getPosts 1 1 Fixtures.emptyObj 1000
        (Blog.incrementViews "p1" Fixtures.state1).2).1 ≠
      (Blog.getPosts 1 1 Fixtures.emptyObj 1000 Fixtures.state1).1 ∧
    ((Blog.getPosts 1 1 Fixtures.emptyObj 1000
        (Blog.incrementViews "p1" Fixtures.state1).2).1.data.map (fun p => p.views)) ≠
      ((Blog.getPosts 1 1 Fixtures.emptyObj 1000 Fixtures.state1).1.data.map (fun p => p.views)) := by
  decide

/-- C8 amended: `incrementViews` and `toggleLike` (either coin-flip outcome)
never remove, replace or invalidate a cache entry — the key sequence of
`_postsCache` and the whole `_lastFetchTime` map are unchanged — so a query
whose key is valid and present is, after the write, still served from that
same cache entry without re-running the filter/sort pipeline, with the same
posts in the same order; but since the cached arrays alias the mutated post
objects, the entry served after the write carries the post's current
view/like counters rather than a pre-write snapshot. -/
theorem writes_never_invalidate_cache (postId : String) (liked : Bool)
    (s : Blog.BlogServiceState) (page pageSize : Nat) (filters : Blog.FiltersObj)
    (now : Int) (cached : List Blog.BlogPost)
    (hvalid : Blog.isCacheValid (Blog.generateCacheKey page pageSize filters) now s = true)
    (hcached : Blog.mapGet (Blog.generateCacheKey page pageSize filters) s.postsCache = some cached) :
    (Blog.incrementViews postId s).2.postsCache.map Prod.fst = s.postsCache.map Prod.fst ∧
    (Blog.incrementViews postId s).2.lastFetchTime = s.lastFetchTime ∧
    (Blog.toggleLike postId liked s).2.postsCache.map Prod.fst = s.postsCache.map Prod.fst ∧
    (Blog.toggleLike postId liked s).2.lastFetchTime = s.lastFetchTime ∧
    (∃ cached',
      Blog.mapGet (Blog.generateCacheKey page pageSize filters)
          (Blog.incrementViews postId s).2.postsCache = some cached' ∧
      (Blog.getPosts page pageSize filters now (Blog.incrementViews postId s).2).1 =
        Blog.buildResponse cached' page pageSize filters none ∧
      cached'.map (fun p => p.id) = cached.map (fun p => p.id)) ∧
    (∃ cached',
      Blog.mapGet (Blog.generateCacheKey page pageSize filters)
          (Blog.toggleLike postId liked s).2.postsCache = some cached' ∧
      (Blog.getPosts page pageSize filters now (Blog.toggleLike postId liked s).2).1 =
        Blog.buildResponse cached' page pageSize filters none ∧
      cached'.map (fun p => p.id) = cached.map (fun p => p.id)) := by
  have hserve : ∀ (st : Blog.BlogServiceState),
      (st = s ∨ ∃ f, (∀ p : Blog.BlogPost, (f p).id = p.id) ∧
        st = Blog.mutateAliases postId f s) →
      ∃ cached',
        Blog.mapGet (Blog.generateCacheKey page pageSize filters) st.postsCache = some cached' ∧
        (Blog.getPosts page pageSize filters now st).1 =
          Blog.buildResponse cached' page pageSize filters none ∧
        cached'.map (fun p => p.id) = cached.map (fun p => p.id) := by
    rintro st (rfl | ⟨f, hf, rfl⟩)
    · exact ⟨cached, hcached,
        congrArg Prod.fst (Blog.getPosts_hit page pageSize filters now _ cached hvalid hcached),
        rfl⟩
    · have hvalid2 : Blog.isCacheValid (Blog.generateCacheKey page pageSize filters) now
          (Blog.mutateAliases postId f s) = true := by
        unfold Blog.isCacheValid at hvalid ⊢
        rw [Blog.mutateAliases_lastFetchTime]
        exact hvalid
      have hcached2 : Blog.mapGet (Blog.generateCacheKey page pageSize filters)
          (Blog.mutateAliases postId f s).postsCache =
          some (cached.map (fun p => if p.id = postId then f p else p)) := by
        show Blog.mapGet (Blog.generateCacheKey page pageSize filters)
          (s.postsCache.map (fun kv =>
            (kv.1, kv.2.map (fun p => if p.id = postId then f p else p)))) = _
        rw [Blog.mapGet_map, hcached]
        rfl
      refine ⟨cached.map (fun p => if p.id = postId then f p else p), hcached2,
        congrArg Prod.fst (Blog.getPosts_hit page pageSize filters now _ _ hvalid2 hcached2), ?_⟩
      rw [List.map_map]
      refine List.map_congr_left ?_
      intro p _
      by_cases hp : p.id = postId
      · simp only [Function.comp, hp, if_true]
        exact (hf p).trans hp
      · simp only [Function.comp, hp, if_false]
  have hinc : (Blog.incrementViews postId s).2 = s ∨
      ∃ f, (∀ p : Blog.BlogPost, (f p).id = p.id) ∧
        (Blog.incrementViews postId s).2 = Blog.mutateAliases postId f s := by
    unfold Blog.incrementViews
    rcases Blog.findPostById s.store postId with _ | _
    · exact Or.inl rfl
    · exact Or.inr ⟨fun post => { post with views := post.views + 1 }, fun p => rfl, rfl⟩
  have htog : (Blog.toggleLike postId liked s).2 = s ∨
      ∃ f, (∀ p : Blog.BlogPost, (f p).id = p.id) ∧
        (Blog.toggleLike postId liked s).2 = Blog.mutateAliases postId f s := by
    unfold Blog.toggleLike
    rcases Blog.findPostById s.store postId with _ | _
    · exact Or.inl rfl
    · exact Or.inr ⟨fun p => { p with likes := p.likes + (if liked then 1 else -1) },
        fun p => rfl, rfl⟩
  have hkeys : ∀ (st : Blog.BlogServiceState),
      (st = s ∨ ∃ f, (∀ p : Blog.BlogPost, (f p).id = p.id) ∧
        st = Blog.mutateAliases postId f s) →
      st.postsCache.map Prod.fst = s.postsCache.map Prod.fst ∧
      st.lastFetchTime = s.lastFetchTime := by
    rintro st (rfl | ⟨f, hf, rfl⟩)
    · exact ⟨rfl, rfl⟩
    · exact ⟨Blog.mutateAliases_cache_keys postId f s,
        Blog.mutateAliases_lastFetchTime postId f s⟩
  exact ⟨(hkeys _ hinc).1, (hkeys _ hinc).2, (hkeys _ htog).1, (hkeys _ htog).2,
    hserve _ hinc, hserve _ htog⟩

/-- Witness for C8 (amended): after `incrementViews "p1"` on the populated
state the cache keys and `_lastFetchTime` are unchanged, and after
`toggleLike "p1"` the repeated query is still served from the cache entry
holding the same post ids. -/
theorem writes_never_invalidate_cache_spec :
    ((Blog.incrementViews "p1" Fixtures.state1).2.postsCache.map Prod.fst =
      Fixtures.state1.postsCache.map Prod.fst) ∧
    ((Blog.incrementViews "p1" Fixtures.state1).2.lastFetchTime =
      Fixtures.state1.lastFetchTime) ∧
    ((Blog.toggleLike "p1" true Fixtures.state1).2.lastFetchTime =
      Fixtures.state1.lastFetchTime) := by
  refine ⟨?_, ?_, ?_⟩
  · exact (writes_never_invalidate_cache "p1" true Fixtures.state1 1 1 Fixtures.emptyObj 1000
      (Blog.applySorting (Blog.applyFilters (Blog.getPublishedPosts Fixtures.state0.store)
        Fixtures.emptyObj.interp) none none)
      (by decide) (by decide)).1
  · exact (writes_never_invalidate_cache "p1" true Fixtures.state1 1 1 Fixtures.emptyObj 1000
      (Blog.applySorting (Blog.applyFilters (Blog.getPublishedPosts Fixtures.state0.store)
        Fixtures.emptyObj.interp) none none)
      (by decide) (by decide)).2.1
  · exact (writes_never_invalidate_cache "p1" true Fixtures.state1 1 1 Fixtures.emptyObj 1000
      (Blog.applySorting (Blog.applyFilters (Blog.getPublishedPosts Fixtures.state0.store)
        Fixtures.emptyObj.interp) none none)
      (by decide) (by decide)).2.2.2.1

/-- C9: a lookup by id (resp. slug) matching no post in the store yields
`null` (`none`) rather than an error; when a match exists, the call returns a
matching post from the store. -/
theorem getPostById_getPostBySlug_null_or_match (id slug : String)
    (s : Blog.BlogServiceState) :
    ((∀ p ∈ s.store, p.id ≠ id) → (Blog.getPostById id s).1 = none) ∧
    ((∃ p ∈ s.store, p.id = id) →
      ∃ p, (Blog.getPostById id s).1 = some p ∧ p ∈ s.store ∧ p.id = id) ∧
    ((∀ p ∈ s.store, p.slug ≠ slug) → (Blog.getPostBySlug slug s).1 = none) ∧
    ((∃ p ∈ s.store, p.slug = slug) →
      ∃ p, (Blog.getPostBySlug slug s).1 = some p ∧ p ∈ s.store ∧ p.slug = slug) := by
  refine ⟨?_, ?_, ?_, ?_⟩
  · intro h
    show Blog.findPostById s.store id = none
    unfold Blog.findPostById
    rw [List.find?_eq_none]
    intro p hp
    simpa using h p hp
  · rintro ⟨q, hq, hqid⟩
    have hsome : (s.store.find? (fun post => post.id = id)).isSome := by
      rw [List.find?_isSome]
      exact ⟨q, hq, by simpa using hqid⟩
    rcases Option.isSome_iff_exists.mp hsome with ⟨p, hp⟩
    refine ⟨p, hp, List.mem_of_find?_eq_some hp, ?_⟩
    simpa using List.find?_some hp
  · intro h
    show Blog.findPostBySlug s.store slug = none
    unfold Blog.findPostBySlug
    rw [List.find?_eq_none]
    intro p hp
    simpa using h p hp
  · rintro ⟨q, hq, hqslug⟩
    have hsome : (s.store.find? (fun post => post.slug = slug)).isSome := by
      rw [List.find?_isSome]
      exact ⟨q, hq, by simpa using hqslug⟩
    rcases Option.isSome_iff_exists.mp hsome with ⟨p, hp⟩
    refine ⟨p, hp, List.mem_of_find?_eq_some hp, ?_⟩
    simpa using List.find?_some hp

/-- Witness for C9: no post of the sample store has id `"zzz"` or slug
`"zzz"`, and both lookups return `none`. -/
theorem getPostById_getPostBySlug_null_or_match_spec :
    (Blog.getPostById "zzz" Fixtures.state0).1 = none ∧
    (Blog.getPostBySlug "zzz" Fixtures.state0).1 = none :=
  ⟨(getPostById_getPostBySlug_null_or_match "zzz" "zzz" Fixtures.state0).1 (by decide),
   (getPostById_getPostBySlug_null_or_match "zzz" "zzz" Fixtures.state0).2.2.1 (by decide)⟩

/-- C10: for a term that is empty or whitespace-only, `BlogService.searchPosts`
and `CategoriaService.searchCategories` return the empty list and leave the
service state untouched (the early return fires before `_setLoading(true)`,
so no filtering, sorting or loading-state change happens). -/
theorem search_blank_term_noop (term : String) (filters : Blog.FiltersObj)
    (s : Blog.BlogServiceState) (store : List Categoria.BlogCategory)
    (cs : Categoria.CategoriaServiceState) (h : Blog.jsTrim term = "") :
    Blog.searchPosts term filters s = ([], s) ∧
    Categoria.searchCategories term store cs = ([], cs) := by
  constructor
  · unfold Blog.searchPosts
    rw [if_pos h]
  · unfold Categoria.searchCategories
    rw [if_pos h]

/-- Witness for C10 with the whitespace-only term `"  "`. -/
theorem search_blank_term_noop_spec :
    Blog.jsTrim "  " = "" ∧
    Blog.searchPosts "  " Fixtures.emptyObj Fixtures.state0 = ([], Fixtures.state0) ∧
    Categoria.searchCategories "  " [Fixtures.cat1] Fixtures.catState0 =
      ([], Fixtures.catState0) :=
  ⟨by decide,
   (search_blank_term_noop "  " Fixtures.emptyObj Fixtures.state0 [Fixtures.cat1]
     Fixtures.catState0 (by decide)).1,
   (search_blank_term_noop "  " Fixtures.emptyObj Fixtures.state0 [Fixtures.cat1]
     Fixtures.catState0 (by decide)).2⟩

/-- C2 counterexample: two filter objects carrying the same fields with the
same values but in different insertion order — `authorId` then `featured`
versus `featured` then `authorId` — denote the same `BlogFilters` record yet
produce different cache keys, so the two `getPosts` calls do NOT hit the same
cache entry. -/
theorem cacheKey_order_sensitive_counterexample :
    Blog.FiltersObj.interp ⟨[("authorId", .jstr "a1"), ("featured", .jbool true)]⟩ =
      Blog.FiltersObj.interp ⟨[("featured", .jbool true), ("authorId", .jstr "a1")]⟩ ∧
    Blog.generateCacheKey 1 10 ⟨[("authorId", .jstr "a1"), ("featured", .jbool true)]⟩ ≠
      Blog.generateCacheKey 1 10 ⟨[("featured", .jbool true), ("authorId", .jstr "a1")]⟩ := by
  decide

/-- C2 amended: the cache key is `page + "-" + pageSize + "-" +
JSON.stringify(filters)` with no key normalization, so for a fixed page and
page size two filter objects derive the same cache key (and hence hit the
same cache entry) precisely when their insertion-ordered JSON serializations
coincide — not whenever they carry the same fields with the same values. -/
theorem cacheKey_eq_iff_stringify_eq (page pageSize : Nat) (o1 o2 : Blog.FiltersObj) :
    Blog.generateCacheKey page pageSize o1 = Blog.generateCacheKey page pageSize o2 ↔
      Blog.stringifyObj o1 = Blog.stringifyObj o2 := by
  unfold Blog.generateCacheKey
  constructor
  · intro h
    have h2 := congrArg String.data h
    simp only [String.data_append] at h2
    exact String.ext (List.append_cancel_left h2)
  · intro h
    rw [h]

/-- C1: the cache stores the *unpaginated* filtered-and-sorted list, and the
cache-hit branch of `getPosts` hands that whole list to `_buildResponse` as
the page data.  At the concrete input below (three-post store with two
published posts, `page = 1`, `pageSize = 1`, empty filters, second call 1
second later, well within the 5-minute TTL) the first (miss) call returns the
one-post slice while the second (hit) call returns both published posts: the
two responses agree on pagination and filters but differ on `data`, refuting
deep-equality of the two results. -/
theorem getPosts_cacheHit_returns_unpaginated :
    (Blog.getPosts 1 1 Fixtures.emptyObj 0 Fixtures.state0).1.data = [Fixtures.post1] ∧
    (Blog.getPosts 1 1 Fixtures.emptyObj 1000
        (Blog.getPosts 1 1 Fixtures.emptyObj 0 Fixtures.state0).2).1.data =
      [Fixtures.post1, Fixtures.post2] ∧
    (Blog.getPosts 1 1 Fixtures.emptyObj 1000
        (Blog.getPosts 1 1 Fixtures.emptyObj 0 Fixtures.state0).2).1.pagination =
      (Blog.getPosts 1 1 Fixtures.emptyObj 0 Fixtures.state0).1.pagination ∧
    (Blog.getPosts 1 1 Fixtures.emptyObj 1000
        (Blog.getPosts 1 1 Fixtures.emptyObj 0 Fixtures.state0).2).1 ≠
      (Blog.getPosts 1 1 Fixtures.emptyObj 0 Fixtures.state0).1 := by
  decide
